import Mathlib

/-!
Verification development for the Universal TTS System repository.

Shallow embedding, translated from the Python sources:
  * `utils/audio_cache.py` — the `AudioCache` class: cache-key generation,
    `get_cached_audio`, `cache_audio`, eviction and stats.
  * `engines/plugins/elevenlabs_engine.py` — `ElevenLabsEngine.configure`.
  * `engines/tts_factory.py` and `engines/factory.py` — the two
    `TTSEngineFactory.get_engine` implementations.
  * `utils/advanced_audio_processor.py` — `_apply_effects` (the time-domain
    effect chain dispatcher).
  * `utils/spectral_processor.py` — `_enhance_harmonics` and
    `_find_harmonic_peaks`.

Modelling conventions:
  * Python dicts are association lists with unique keys; `dict[k] = v` is
    `setKey`, `del dict[k]` is `delKey` (removes every binding with that key,
    which on a unique-key list is exactly Python's `del`), lookup is
    `lookupKey`.
  * Python floats are rationals (`ℚ`); timestamps and byte sizes are `Int`.
  * Byte strings are `List Nat`.
  * The filesystem visible to the cache is the `files` field of `CacheState`;
    `time.time()` is an explicit `now : Int` argument; a raised exception is
    `Except.error` carrying the message together with the object state at the
    moment of the raise (Python mutations performed before the raise persist).
  * The md5 hex digest in `_generate_cache_key` is modelled as the identity on
    the digested string: every claim here depends only on which key strings
    are equal, and equal inputs give equal digests.
-/

/-- Python dict lookup `d.get(k)` / `d[k]` on an association list. -/
def lookupKey {α : Type} (k : String) : List (String × α) → Option α
  | [] => Option.none
  | p :: t => if p.1 = k then some p.2 else lookupKey k t

/-- Python dict assignment `d[k] = v`: replace the binding if the key is
present, append it otherwise. -/
def setKey {α : Type} (k : String) (v : α) : List (String × α) → List (String × α)
  | [] => [(k, v)]
  | p :: t => if p.1 = k then (k, v) :: t else p :: setKey k v t

/-- Python dict deletion `del d[k]`: drops every binding with key `k`
(on a unique-key list this is exactly one binding, as in Python). -/
def delKey {α : Type} (k : String) : List (String × α) → List (String × α)
  | [] => []
  | p :: t => if p.1 = k then delKey k t else p :: delKey k t

/-- Lexicographic comparison of strings by code point, as Python compares the
keys that `json.dumps(..., sort_keys=True)` sorts.  Boolean and executable so
concrete keys evaluate in the kernel. -/
def strLeAux : List Char → List Char → Bool
  | [], _ => true
  | _ :: _, [] => false
  | a :: as, b :: bs =>
    if a.val.toNat < b.val.toNat then true
    else if b.val.toNat < a.val.toNat then false
    else strLeAux as bs

/-- String order used to sort settings keys (Python sorts by code point). -/
def strLe (a b : String) : Bool := strLeAux a.data b.data

/-- A scalar Python value appearing in an engine-settings map (the settings
this repository passes around are strings, numbers and booleans). -/
inductive SVal where
  | num (q : ℚ)
  | str (s : String)
  | bool (b : Bool)
deriving DecidableEq

/-- Rendering of a number in the serialized settings (a fixed representation
choice; the claims depend only on the rendering being a function). -/
def ratRepr (q : ℚ) : String :=
  if q.den = 1 then toString q.num else toString q.num ++ "/" ++ toString q.den

/-- Rendering of one settings value inside `json.dumps`. -/
def svalRepr : SVal → String
  | SVal.num q => ratRepr q
  | SVal.str s => "\"" ++ s ++ "\""
  | SVal.bool true => "true"
  | SVal.bool false => "false"

/-- Insertion into a key-sorted association list, keeping key order. -/
def insertByKey (p : String × SVal) : List (String × SVal) → List (String × SVal)
  | [] => [p]
  | q :: t => if strLe p.1 q.1 then p :: q :: t else q :: insertByKey p t

/-- Sorting an association list by key, as `json.dumps(..., sort_keys=True)`
orders a dict's items before serializing them. -/
def sortByKey : List (String × SVal) → List (String × SVal)
  | [] => []
  | p :: t => insertByKey p (sortByKey t)

/-- The serialization `json.dumps(settings, sort_keys=True)` of a flat
settings dict: items sorted by key, rendered "key": value, joined by ", ". -/
def dumpsSettings (settings : List (String × SVal)) : String :=
  "\x7b" ++
    String.intercalate ", "
      ((sortByKey settings).map (fun p => "\"" ++ p.1 ++ "\": " ++ svalRepr p.2)) ++
  "\x7d"

namespace AudioCache

/-- `AudioCache._generate_cache_key`:
`key_data = f"{text}:{engine}:{voice_id}:{json.dumps(settings, sort_keys=True)}"`,
then md5 (modelled as the identity on `key_data`, see the header). -/
def genCacheKey (text engine voiceId : String) (settings : List (String × SVal)) : String :=
  text ++ ":" ++ engine ++ ":" ++ voiceId ++ ":" ++ dumpsSettings settings

/-- One value of the `cache_index` dict: the metadata `cache_audio` stores. -/
structure CacheEntry where
  createdAt : Int
  lastAccessed : Int
  size : Nat
  engine : String
  voiceId : String
deriving DecidableEq

/-- The state of an `AudioCache` object together with the cache directory it
owns: `index` is `self.cache_index`, `files` maps a cache key to the bytes of
its payload file `{key}.mp3` (a missing key is a missing file). -/
structure CacheState where
  maxSizeBytes : Int
  maxAgeSeconds : Int
  index : List (String × CacheEntry)
  files : List (String × List Nat)
deriving DecidableEq

/-- `AudioCache.__init__(cache_dir, max_size_mb, max_age_days)` with an empty
directory. -/
def initCache (maxSizeMb maxAgeDays : Int) : CacheState :=
  { maxSizeBytes := maxSizeMb * 1024 * 1024
    maxAgeSeconds := maxAgeDays * 24 * 60 * 60
    index := []
    files := [] }

/-- `cache_path.stat().st_size if cache_path.exists() else` nothing: the size
used by `_get_cache_size` and `_remove_largest_entries` (0 for a missing
file, matching the `else 0` in the eviction key function). -/
def fileSize (s : CacheState) (k : String) : Int :=
  match lookupKey k s.files with
  | some data => (data.length : Int)
  | Option.none => 0

/-- `AudioCache._get_cache_size`: total size of the payload files of the
indexed entries that exist on disk. -/
def cacheSizeOf (s : CacheState) : Int :=
  (s.index.map Prod.fst).foldl (fun acc k => acc + fileSize s k) 0

/-- `max(self.cache_index.keys(), key=...)` in `_remove_largest_entries`:
`Option.none` models the `ValueError` Python's `max` raises on an empty
sequence.  Python's `max` keeps the first maximal element while scanning. -/
def largestKey (s : CacheState) : Option String :=
  match s.index.map Prod.fst with
  | [] => Option.none
  | k :: ks =>
    some (ks.foldl (fun best cand => if fileSize s cand > fileSize s best then cand else best) k)

/-- `AudioCache.remove_from_cache`: delete the payload file (if present) and
the index entry; a no-op when the key is not indexed. -/
def removeFromCache (k : String) (s : CacheState) : CacheState :=
  if (lookupKey k s.index).isSome then
    { s with index := delKey k s.index, files := delKey k s.files }
  else s

/-- `AudioCache._remove_largest_entries(target)`: while the cache size
exceeds `target`, remove the entry `max(...)` picks; when the index is empty
and the size still exceeds `target`, Python's `max` raises
`ValueError: max() arg is an empty sequence` (the error carries the state at
the raise). -/
def removeLargestEntries (target : Int) (s : CacheState) :
    Except (String × CacheState) CacheState :=
  if cacheSizeOf s > target then
    match h : largestKey s with
    | Option.none => Except.error ("ValueError: max() arg is an empty sequence", s)
    | some k => removeLargestEntries target (removeFromCache k s)
  else Except.ok s
termination_by s.index.length
decreasing_by
  have hdelle : ∀ (l : List (String × CacheEntry)), (delKey k l).length ≤ l.length := by
    intro l
    induction l with
    | nil => simp [delKey]
    | cons p t ih =>
      by_cases hp : p.1 = k
      · simp only [delKey, if_pos hp]
        exact Nat.le_succ_of_le ih
      · simp only [delKey, if_neg hp, List.length_cons]
        exact Nat.succ_le_succ ih
  have hmem : k ∈ s.index.map Prod.fst := by
    unfold largestKey at h
    rcases hm : s.index.map Prod.fst with _ | ⟨k0, ks⟩
    · rw [hm] at h
      exact absurd h (by simp)
    · rw [hm] at h
      simp only [Option.some.injEq] at h
      have hfold : ∀ (t : List String) (b : String),
          List.foldl (fun best cand => if fileSize s cand > fileSize s best then cand else best)
            b t ∈ b :: t := by
        intro t
        induction t with
        | nil => intro b; exact List.mem_cons_self b []
        | cons c u ih =>
          intro b
          have hres := ih (if fileSize s c > fileSize s b then c else b)
          simp only [List.foldl_cons]
          by_cases hc : fileSize s c > fileSize s b
          · rw [if_pos hc] at hres ⊢
            exact List.mem_cons_of_mem b hres
          · rw [if_neg hc] at hres ⊢
            rcases List.mem_cons.mp hres with h1 | h1
            · exact List.mem_cons.mpr (Or.inl h1)
            · exact List.mem_cons_of_mem b (List.mem_cons_of_mem c h1)
      exact h ▸ hfold ks k0
  have hsome : ∀ (l : List (String × CacheEntry)),
      k ∈ l.map Prod.fst → (lookupKey k l).isSome := by
    intro l
    induction l with
    | nil => intro hx; simp at hx
    | cons p t ih =>
      intro hx
      by_cases hp : p.1 = k
      · simp only [lookupKey, if_pos hp, Option.isSome_some]
      · simp only [lookupKey, if_neg hp]
        apply ih
        simp only [List.map_cons, List.mem_cons] at hx
        rcases hx with hx | hx
        · exact absurd hx.symm hp
        · exact hx
  have hdel : ∀ (l : List (String × CacheEntry)),
      k ∈ l.map Prod.fst → (delKey k l).length < l.length := by
    intro l
    induction l with
    | nil => intro hx; simp at hx
    | cons p t ih =>
      intro hx
      by_cases hp : p.1 = k
      · simp only [delKey, if_pos hp, List.length_cons]
        exact Nat.lt_succ_of_le (hdelle t)
      · simp only [delKey, if_neg hp, List.length_cons]
        apply Nat.succ_lt_succ
        apply ih
        simp only [List.map_cons, List.mem_cons] at hx
        rcases hx with hx | hx
        · exact absurd hx.symm hp
        · exact hx
  simp only [removeFromCache, hsome s.index hmem, if_true]
  exact hdel s.index hmem

/-- `AudioCache.get_cached_audio(text, engine, voice_id, settings)`: returns
the payload on a hit (bumping `last_accessed` to `now`), `Option.none` on a
miss; a missing payload file or an expired entry is evicted as a side
effect.  The pair is (returned value, cache state after the call).  The
final `open(...).read()` of a file the `files` map holds is modelled as
succeeding (its `except` clause would turn an I/O error into a miss). -/
def getCachedAudio (now : Int) (text engine voiceId : String)
    (settings : List (String × SVal)) (s : CacheState) :
    Option (List Nat) × CacheState :=
  let key := genCacheKey text engine voiceId settings
  match lookupKey key s.index with
  | Option.none => (Option.none, s)
  | some entry =>
    match lookupKey key s.files with
    | Option.none => (Option.none, { s with index := delKey key s.index })
    | some data =>
      if now - entry.createdAt > s.maxAgeSeconds then
        (Option.none, removeFromCache key s)
      else
        let bumped := { entry with lastAccessed := now }
        (some data, { s with index := setKey key bumped s.index })

/-- `AudioCache.cache_audio(text, engine, voice_id, settings, audio_data)`.
`writeOk` models whether the payload write `open(cache_path,'wb').write`
succeeds; on a write failure the code logs and returns the key without
touching the index.  `Except.ok (key, state)` is a normal return,
`Except.error (message, state)` a raised exception (from eviction). -/
def cacheAudio (now : Int) (text engine voiceId : String)
    (settings : List (String × SVal)) (audioData : List Nat) (writeOk : Bool)
    (s : CacheState) : Except (String × CacheState) (String × CacheState) :=
  let key := genCacheKey text engine voiceId settings
  let evicted :=
    if cacheSizeOf s + (audioData.length : Int) > s.maxSizeBytes then
      removeLargestEntries (s.maxSizeBytes - (audioData.length : Int)) s
    else Except.ok s
  match evicted with
  | Except.error e => Except.error e
  | Except.ok s1 =>
    if writeOk then
      let s2 := { s1 with files := setKey key audioData s1.files }
      let entry : CacheEntry :=
        { createdAt := now, lastAccessed := now, size := audioData.length
          engine := engine, voiceId := voiceId }
      Except.ok (key, { s2 with index := setKey key entry s2.index })
    else Except.ok (key, s1)

/-- The dictionary `AudioCache.get_cache_stats` returns. -/
structure CacheStats where
  totalSizeBytes : Int
  entryCount : Nat
  oldestEntryAgeSeconds : Int
  maxSizeBytes : Int
  maxAgeSeconds : Int
deriving DecidableEq

/-- `min((entry["created_at"] ...), default=time.time())` in
`get_cache_stats`. -/
def oldestCreatedAt (now : Int) (s : CacheState) : Int :=
  match s.index.map (fun p => p.2.createdAt) with
  | [] => now
  | t :: ts => ts.foldl (fun a b => if b < a then b else a) t

/-- `AudioCache.get_cache_stats`. -/
def getCacheStats (now : Int) (s : CacheState) : CacheStats :=
  { totalSizeBytes := cacheSizeOf s
    entryCount := s.index.length
    oldestEntryAgeSeconds := now - oldestCreatedAt now s
    maxSizeBytes := s.maxSizeBytes
    maxAgeSeconds := s.maxAgeSeconds }

end AudioCache

namespace ElevenLabs

/-- The mutable state of an `ElevenLabsEngine` that `configure` reads and
writes: `self._settings` and the keys of `self._voice_cache`. -/
structure EngineState where
  settings : List (String × SVal)
  voiceCache : List String
deriving DecidableEq

/-- `ElevenLabsEngine.__init__`: the default `self._settings` (0.5 and 0.75
are the Python floats, written as the rationals 1/2 and 3/4) and an empty
voice cache. -/
def defaultEngine : EngineState :=
  { settings :=
      [("voice_id", SVal.str "21m00Tcm4TlvDq8ikWAM"),
       ("stability", SVal.num (1/2)),
       ("similarity_boost", SVal.num (3/4)),
       ("style", SVal.num 0),
       ("use_speaker_boost", SVal.bool true),
       ("model_id", SVal.str "eleven_monolingual_v1")]
    voiceCache := [] }

/-- Python `value not in self._voice_cache`: dict membership tests the keys
(strings); a non-string value is not a key, so `not in` holds. -/
def voiceMem (v : SVal) (cache : List String) : Bool :=
  match v with
  | SVal.str s => decide (s ∈ cache)
  | _ => false

/-- Python `isinstance(value, bool)`. -/
def isBoolVal : SVal → Bool
  | SVal.bool _ => true
  | _ => false

/-- The three `raise` guards in the body of the `configure` loop, in source
order, for one recognized key: `some message` models the raised
`TTSEngineError` (or the `TypeError` from comparing a string with `0`),
`Option.none` means no raise and the assignment goes ahead. -/
def checkOne (st : EngineState) (k : String) (v : SVal) : Option String :=
  if k = "voice_id" ∧ ¬ voiceMem v st.voiceCache then
    some ("Invalid voice ID: " ++ svalRepr v)
  else if k = "stability" ∨ k = "similarity_boost" ∨ k = "style" then
    match v with
    | SVal.num q =>
      if 0 ≤ q ∧ q ≤ 1 then
        Option.none
      else some (k ++ " must be between 0 and 1")
    | SVal.bool _ => Option.none
    | SVal.str _ =>
      some "TypeError: not supported between instances of int and str"
  else if k = "use_speaker_boost" ∧ ¬ isBoolVal v then
    some "use_speaker_boost must be a boolean"
  else Option.none

/-- The `for key, value in settings.items()` loop of
`ElevenLabsEngine.configure`: unrecognized keys are skipped, a recognized key
is validated and then assigned; a raise aborts the loop with the assignments
made so far still in place. -/
def configureLoop : List (String × SVal) → EngineState →
    Except (String × EngineState) EngineState
  | [], st => Except.ok st
  | (k, v) :: rest, st =>
    if (lookupKey k st.settings).isSome then
      match checkOne st k v with
      | some e => Except.error (e, st)
      | Option.none => configureLoop rest { st with settings := setKey k v st.settings }
    else configureLoop rest st

/-- `ElevenLabsEngine.configure(settings)`: the loop, with the outer
`except` clause re-raising any exception as
`TTSEngineError("Failed to configure ElevenLabs TTS engine: ...")`. -/
def configure (st : EngineState) (cfg : List (String × SVal)) :
    Except (String × EngineState) EngineState :=
  match configureLoop cfg st with
  | Except.error (e, st1) =>
    Except.error ("Failed to configure ElevenLabs TTS engine: " ++ e, st1)
  | Except.ok st1 => Except.ok st1

end ElevenLabs

namespace Factories

/-- The state of the `dist/engines/tts_factory.py` `TTSEngineFactory`:
`engineClasses` maps an engine name to its class (kept as the class name),
`engines` maps a name to the memoized instance, an instance being the
allocation number `engine_class()` produced.  `nextId` is the next
allocation number. -/
structure DistFactory where
  engineClasses : List (String × String)
  engines : List (String × Nat)
  nextId : Nat
deriving DecidableEq

/-- `TTSEngineFactory.get_engine` of `dist/engines/tts_factory.py`: an
existing instance is returned as is; otherwise a registered class is
instantiated and memoized; an unknown name logs and returns `None`. -/
def DistFactory.getEngine (f : DistFactory) (engineName : String) :
    Option Nat × DistFactory :=
  match lookupKey engineName f.engines with
  | some inst => (some inst, f)
  | Option.none =>
    if (lookupKey engineName f.engineClasses).isSome then
      (some f.nextId,
        { f with engines := setKey engineName f.nextId f.engines, nextId := f.nextId + 1 })
    else (Option.none, f)

/-- `TTSEngineFactory.__init__` of `dist/engines/tts_factory.py` before the
plugin scan: the one built-in engine and no instances. -/
def initDistFactory : DistFactory :=
  { engineClasses := [("pyttsx3", "PyTTSx3Engine")], engines := [], nextId := 0 }

/-- The state of the `engines/factory.py` `TTSEngineFactory`: only the
name-to-class registry (this factory keeps no instances). -/
structure SrcFactory where
  engines : List (String × String)
  nextId : Nat
deriving DecidableEq

/-- `TTSEngineFactory.get_engine` of `engines/factory.py`: constructs a
fresh instance on every call and raises `ValueError` for an unknown name. -/
def SrcFactory.getEngine (f : SrcFactory) (engineType : String) :
    Except String (Nat × String) × SrcFactory :=
  match lookupKey engineType f.engines with
  | Option.none => (Except.error ("Unsupported engine type: " ++ engineType), f)
  | some cls => (Except.ok (f.nextId, cls), { f with nextId := f.nextId + 1 })

/-- `TTSEngineFactory.__init__` of `engines/factory.py`. -/
def initSrcFactory : SrcFactory :=
  { engines :=
      [("edge-tts", "EdgeTTSEngine"),
       ("elevenlabs", "ElevenLabsEngine"),
       ("azure-tts", "AzureTTSEngine")]
    nextId := 0 }

end Factories

/-- A Python value as it appears in an effects-configuration dict. -/
inductive PyVal where
  | none
  | bool (b : Bool)
  | num (q : ℚ)
  | str (s : String)
  | list (l : List PyVal)
  | dict (l : List (String × PyVal))

/-- Python truthiness, as `if effects.get(name):` evaluates it. -/
def PyVal.truthy : PyVal → Bool
  | PyVal.none => false
  | PyVal.bool b => b
  | PyVal.num q => decide (q ≠ 0)
  | PyVal.str s => decide (s ≠ "")
  | PyVal.list l => !l.isEmpty
  | PyVal.dict l => !l.isEmpty

/-- Python `effects.get(k)` (default `None`). -/
def dictGet (d : List (String × PyVal)) (k : String) : PyVal :=
  (lookupKey k d).getD PyVal.none

namespace Effects

/-- The eight stage implementations of `AdvancedAudioProcessor`.  Their
bodies delegate to external numeric primitives (scipy `filtfilt`, librosa
STFT/resampling), which the spec treats as external collaborators; the
dispatcher `applyEffects` below is the translated code, and it is
parametric in the stages it sequences. -/
structure Stages (α : Type) where
  reduceNoise : α → α
  applyEq : α → PyVal → α
  applyCompression : α → PyVal → α
  applyReverb : α → PyVal → α
  applyEcho : α → PyVal → α
  shiftPitch : α → PyVal → α
  stretchTime : α → PyVal → α
  adjustStereoWidth : α → PyVal → α

/-- `AdvancedAudioProcessor._apply_effects(audio, effects)`: each stage runs
exactly when its key is truthy in the effects dict, in the fixed source
order noise reduction, EQ, compression, reverb, echo, pitch shift, time
stretch, stereo width — never in the dict's iteration order. -/
def applyEffects {α : Type} (st : Stages α) (audio : α)
    (effects : List (String × PyVal)) : α :=
  let audio := if (dictGet effects "noise_reduction").truthy then st.reduceNoise audio else audio
  let audio := if (dictGet effects "equalization").truthy then
    st.applyEq audio (dictGet effects "equalization") else audio
  let audio := if (dictGet effects "compression").truthy then
    st.applyCompression audio (dictGet effects "compression") else audio
  let audio := if (dictGet effects "reverb").truthy then
    st.applyReverb audio (dictGet effects "reverb") else audio
  let audio := if (dictGet effects "echo").truthy then
    st.applyEcho audio (dictGet effects "echo") else audio
  let audio := if (dictGet effects "pitch_shift").truthy then
    st.shiftPitch audio (dictGet effects "pitch_shift") else audio
  let audio := if (dictGet effects "time_stretch").truthy then
    st.stretchTime audio (dictGet effects "time_stretch") else audio
  let audio := if (dictGet effects "stereo_width").truthy then
    st.adjustStereoWidth audio (dictGet effects "stereo_width") else audio
  audio

end Effects

namespace Spectral

/-- One bin of the complex STFT spectrogram in polar form: the complex
number `mag * exp(i * ph)`.  `np.abs` of it is `mag` (bins carry a
non-negative magnitude), `np.angle` is `ph`, and
`magnitude * np.exp(1j * phase)` rebuilds the pair. -/
structure PComplex where
  mag : ℚ
  ph : ℚ
deriving DecidableEq

/-- Truthiness of a numpy boolean array, as Python `and` forces it inside
`_find_harmonic_peaks`: a one-element array is its element; any other size
raises `ValueError` (spectrogram rows have one column per STFT frame, and
rows are never empty for real audio). -/
def npTruthy (r : List Bool) : Except String Bool :=
  match r with
  | [b] => Except.ok b
  | _ =>
    Except.error
      "ValueError: The truth value of an array with more than one element is ambiguous"

/-- Elementwise `>` of two numpy rows (`magnitude[i] > magnitude[i-1]`). -/
def gtRow (a b : List ℚ) : List Bool :=
  List.zipWith (fun x y => decide (x > y)) a b

/-- Elementwise `>` of a numpy row against a scalar threshold. -/
def gtScalar (a : List ℚ) (t : ℚ) : List Bool :=
  a.map (fun x => decide (x > t))

/-- `magnitude[i]` (row `i` of the magnitude matrix). -/
def rowOfIdx (m : List (List ℚ)) (i : Nat) : List ℚ :=
  m.getD i []

/-- The condition
`magnitude[i] > magnitude[i-1] and magnitude[i] > magnitude[i+1] and magnitude[i] > threshold`
with Python's left-to-right short-circuit and numpy truthiness. -/
def peakCond (m : List (List ℚ)) (t : ℚ) (i : Nat) : Except String Bool :=
  match npTruthy (gtRow (rowOfIdx m i) (rowOfIdx m (i - 1))) with
  | Except.error e => Except.error e
  | Except.ok false => Except.ok false
  | Except.ok true =>
    match npTruthy (gtRow (rowOfIdx m i) (rowOfIdx m (i + 1))) with
    | Except.error e => Except.error e
    | Except.ok false => Except.ok false
    | Except.ok true => npTruthy (gtScalar (rowOfIdx m i) t)

/-- `SpectralProcessor._find_harmonic_peaks(magnitude, threshold)`:
`for i in range(1, magnitude.shape[0]-1)`, append `i` when the peak
condition holds; an exception aborts the loop. -/
def findHarmonicPeaks (m : List (List ℚ)) (t : ℚ) : Except String (List Nat) :=
  (List.range' 1 (m.length - 1 - 1)).foldlM
    (fun peaks i =>
      match peakCond m t i with
      | Except.error e => Except.error e
      | Except.ok true => Except.ok (peaks ++ [i])
      | Except.ok false => Except.ok peaks) []

/-- `magnitude_enhanced[peak] *= enhancement`: scale row `p` of the matrix. -/
def scaleRow : List (List ℚ) → Nat → ℚ → List (List ℚ)
  | [], _, _ => []
  | r :: t, 0, f => r.map (fun x => x * f) :: t
  | r :: t, Nat.succ p, f => r :: scaleRow t p f

/-- `magnitude_enhanced * np.exp(1j * phase)`: recombine magnitude and phase
matrices into the complex spectrogram. -/
def recombine (mags phs : List (List ℚ)) : List (List PComplex) :=
  List.zipWith (fun mr pr => List.zipWith (fun mg p => PComplex.mk mg p) mr pr) mags phs

/-- `SpectralProcessor._enhance_harmonics(D, params)`: split `D` into
magnitude and phase, find harmonic peaks, multiply each peak row of the
magnitude by the enhancement factor, and recombine with the untouched
phase.  An exception from `_find_harmonic_peaks` propagates. -/
def enhanceHarmonics (D : List (List PComplex)) (params : List (String × ℚ)) :
    Except String (List (List PComplex)) :=
  let enhancement := (lookupKey "enhancement" params).getD (3/2)
  let threshold := (lookupKey "threshold" params).getD (1/10)
  let magnitude := D.map (fun row => row.map PComplex.mag)
  let phase := D.map (fun row => row.map PComplex.ph)
  match findHarmonicPeaks magnitude threshold with
  | Except.error e => Except.error e
  | Except.ok peaks =>
    let magnitudeEnhanced := peaks.foldl (fun mm p => scaleRow mm p enhancement) magnitude
    Except.ok (recombine magnitudeEnhanced phase)

end Spectral

/-! General lemmas about the dict operations. -/

theorem lookupKey_setKey_self {α : Type} (k : String) (v : α) :
    ∀ l : List (String × α), lookupKey k (setKey k v l) = some v := by
  intro l
  induction l with
  | nil => simp [setKey, lookupKey]
  | cons p t ih =>
    by_cases hp : p.1 = k
    · simp [setKey, hp, lookupKey]
    · simp [setKey, hp, lookupKey, ih]

theorem lookupKey_delKey_self {α : Type} (k : String) :
    ∀ l : List (String × α), lookupKey k (delKey k l) = Option.none := by
  intro l
  induction l with
  | nil => simp [delKey, lookupKey]
  | cons p t ih =>
    by_cases hp : p.1 = k
    · simp [delKey, hp, ih]
    · simp [delKey, hp, lookupKey, ih]

theorem lookupKey_delKey_other {α : Type} (j k : String) (hjk : j ≠ k) :
    ∀ l : List (String × α), lookupKey j (delKey k l) = lookupKey j l := by
  intro l
  induction l with
  | nil => simp [delKey]
  | cons p t ih =>
    by_cases hp : p.1 = k
    · have hpj : p.1 ≠ j := by rw [hp]; exact fun hh => hjk hh.symm
      simp [delKey, hp, lookupKey, hpj, ih, Ne.symm hjk]
    · simp [delKey, hp, lookupKey, ih]

/-! Lemmas about the string order and the key sort used by the canonical
settings serialization. -/

theorem strLeAux_cons_iff (x y : Char) (xs ys : List Char) :
    strLeAux (x :: xs) (y :: ys) = true ↔
      (x.val.toNat < y.val.toNat ∨ (x.val.toNat = y.val.toNat ∧ strLeAux xs ys = true)) := by
  simp only [strLeAux]
  by_cases h1 : x.val.toNat < y.val.toNat
  · rw [if_pos h1]
    simp [h1]
  · rw [if_neg h1]
    by_cases h2 : y.val.toNat < x.val.toNat
    · rw [if_pos h2]
      constructor
      · intro hh; simp at hh
      · rintro (hlt | ⟨heqq, _⟩) <;> omega
    · rw [if_neg h2]
      have hxy : x.val.toNat = y.val.toNat := by omega
      constructor
      · intro hh; exact Or.inr ⟨hxy, hh⟩
      · rintro (hlt | ⟨_, hP⟩)
        · omega
        · exact hP

theorem strLeAux_total : ∀ (a b : List Char), strLeAux a b = true ∨ strLeAux b a = true := by
  intro a
  induction a with
  | nil => intro b; left; rfl
  | cons x xs ih =>
    intro b
    cases b with
    | nil => right; rfl
    | cons y ys =>
      rcases Nat.lt_trichotomy x.val.toNat y.val.toNat with hlt | heq | hgt
      · left; rw [strLeAux_cons_iff]; exact Or.inl hlt
      · rcases ih ys with h | h
        · left; rw [strLeAux_cons_iff]; exact Or.inr ⟨heq, h⟩
        · right; rw [strLeAux_cons_iff]; exact Or.inr ⟨heq.symm, h⟩
      · right; rw [strLeAux_cons_iff]; exact Or.inl hgt

theorem strLeAux_trans : ∀ (a b c : List Char),
    strLeAux a b = true → strLeAux b c = true → strLeAux a c = true := by
  intro a
  induction a with
  | nil => intro b c _ _; rfl
  | cons x xs ih =>
    intro b c hab hbc
    cases b with
    | nil => exact absurd hab (by simp [strLeAux])
    | cons y ys =>
      cases c with
      | nil => exact absurd hbc (by simp [strLeAux])
      | cons z zs =>
        rw [strLeAux_cons_iff] at hab hbc ⊢
        rcases hab with h1 | ⟨h1, h1r⟩ <;> rcases hbc with h2 | ⟨h2, h2r⟩
        · exact Or.inl (by omega)
        · exact Or.inl (by omega)
        · exact Or.inl (by omega)
        · exact Or.inr ⟨by omega, ih ys zs h1r h2r⟩

theorem charNat_inj {x y : Char} (h : x.val.toNat = y.val.toNat) : x = y := by
  apply Char.ext
  have hbv : x.val.toBitVec = y.val.toBitVec := BitVec.eq_of_toNat_eq h
  cases hv : x.val
  cases hw : y.val
  rw [hv, hw] at hbv
  simp_all

theorem strLeAux_antisymm : ∀ (a b : List Char),
    strLeAux a b = true → strLeAux b a = true → a = b := by
  intro a
  induction a with
  | nil =>
    intro b hab hba
    cases b with
    | nil => rfl
    | cons y ys => exact absurd hba (by simp [strLeAux])
  | cons x xs ih =>
    intro b hab hba
    cases b with
    | nil => exact absurd hab (by simp [strLeAux])
    | cons y ys =>
      rw [strLeAux_cons_iff] at hab hba
      have hxy : x.val.toNat = y.val.toNat := by
        rcases hab with h | ⟨h, _⟩ <;> rcases hba with h2 | ⟨h2, _⟩ <;> omega
      have hr : strLeAux xs ys = true := by
        rcases hab with h | ⟨_, hh⟩
        · exact absurd h (by omega)
        · exact hh
      have hr2 : strLeAux ys xs = true := by
        rcases hba with h | ⟨_, hh⟩
        · exact absurd h (by omega)
        · exact hh
      rw [charNat_inj hxy, ih ys hr hr2]

theorem strLe_total (a b : String) : strLe a b = true ∨ strLe b a = true :=
  strLeAux_total a.data b.data

theorem strLe_trans {a b c : String} (h1 : strLe a b = true) (h2 : strLe b c = true) :
    strLe a c = true :=
  strLeAux_trans a.data b.data c.data h1 h2

theorem strLe_antisymm {a b : String} (h1 : strLe a b = true) (h2 : strLe b a = true) :
    a = b :=
  String.ext (strLeAux_antisymm a.data b.data h1 h2)

theorem insertByKey_perm (p : String × SVal) :
    ∀ l, (insertByKey p l).Perm (p :: l) := by
  intro l
  induction l with
  | nil => exact List.Perm.refl _
  | cons q t ih =>
    by_cases h : strLe p.1 q.1
    · simp only [insertByKey, if_pos h]
      exact List.Perm.refl _
    · simp only [insertByKey, if_neg h]
      exact (ih.cons q).trans (List.Perm.swap p q t)

theorem sortByKey_perm : ∀ l, (sortByKey l).Perm l := by
  intro l
  induction l with
  | nil => exact List.Perm.refl _
  | cons p t ih => exact (insertByKey_perm p (sortByKey t)).trans (ih.cons p)

theorem insertByKey_sorted (p : String × SVal) (l : List (String × SVal))
    (h : List.Pairwise (fun a b => strLe a.1 b.1 = true) l) :
    List.Pairwise (fun a b => strLe a.1 b.1 = true) (insertByKey p l) := by
  induction l with
  | nil => simp [insertByKey]
  | cons q t ih =>
    rcases List.pairwise_cons.mp h with ⟨hq, ht⟩
    by_cases hpq : strLe p.1 q.1
    · simp only [insertByKey, if_pos hpq]
      refine List.pairwise_cons.mpr ⟨?_, h⟩
      intro x hx
      rcases List.mem_cons.mp hx with rfl | hx
      · exact hpq
      · exact strLe_trans hpq (hq x hx)
    · simp only [insertByKey, if_neg hpq]
      refine List.pairwise_cons.mpr ⟨?_, ih ht⟩
      intro x hx
      have hx2 := (insertByKey_perm p t).mem_iff.mp hx
      rcases List.mem_cons.mp hx2 with rfl | hx2
      · rcases strLe_total x.1 q.1 with hh | hh
        · exact absurd hh hpq
        · exact hh
      · exact hq x hx2

theorem sortByKey_sorted :
    ∀ l, List.Pairwise (fun a b : String × SVal => strLe a.1 b.1 = true) (sortByKey l) := by
  intro l
  induction l with
  | nil => simp [sortByKey]
  | cons p t ih => exact insertByKey_sorted p (sortByKey t) ih

theorem sortedKeys_perm_eq :
    ∀ (l1 l2 : List (String × SVal)),
      List.Pairwise (fun a b => strLe a.1 b.1 = true) l1 →
      List.Pairwise (fun a b => strLe a.1 b.1 = true) l2 →
      (l1.map Prod.fst).Nodup → l1.Perm l2 → l1 = l2 := by
  intro l1
  induction l1 with
  | nil =>
    intro l2 _ _ _ hperm
    exact (List.Perm.eq_nil hperm.symm).symm
  | cons a t1 ih =>
    intro l2 hs1 hs2 hnd hperm
    cases l2 with
    | nil => exact absurd (List.Perm.eq_nil hperm) (by simp)
    | cons b t2 =>
      have hnd2 : a.1 ∉ t1.map Prod.fst ∧ (t1.map Prod.fst).Nodup := by
        rw [List.map_cons] at hnd
        exact List.nodup_cons.mp hnd
      have hab : a = b := by
        have hamem : a ∈ b :: t2 := hperm.mem_iff.mp (List.mem_cons_self a t1)
        rcases List.mem_cons.mp hamem with h | h
        · exact h
        · have hbmem : b ∈ a :: t1 := hperm.mem_iff.mpr (List.mem_cons_self b t2)
          rcases List.mem_cons.mp hbmem with h2 | h2
          · exact h2.symm
          · have hle1 : strLe a.1 b.1 = true := (List.pairwise_cons.mp hs1).1 b h2
            have hle2 : strLe b.1 a.1 = true := (List.pairwise_cons.mp hs2).1 a h
            have hk : a.1 = b.1 := strLe_antisymm hle1 hle2
            exfalso
            have hmemmap : b.1 ∈ t1.map Prod.fst := List.mem_map_of_mem Prod.fst h2
            rw [← hk] at hmemmap
            exact hnd2.1 hmemmap
      subst hab
      have hperm2 : t1.Perm t2 := hperm.cons_inv
      rw [ih t2 (List.pairwise_cons.mp hs1).2 (List.pairwise_cons.mp hs2).2 hnd2.2 hperm2]

theorem dumpsSettings_perm (s1 s2 : List (String × SVal))
    (hnd : (s1.map Prod.fst).Nodup) (hperm : s1.Perm s2) :
    dumpsSettings s1 = dumpsSettings s2 := by
  have hsort : sortByKey s1 = sortByKey s2 := by
    apply sortedKeys_perm_eq
    · exact sortByKey_sorted s1
    · exact sortByKey_sorted s2
    · have hp : ((sortByKey s1).map Prod.fst).Perm (s1.map Prod.fst) :=
        (sortByKey_perm s1).map Prod.fst
      exact hp.symm.nodup hnd
    · exact (sortByKey_perm s1).trans (hperm.trans (sortByKey_perm s2).symm)
  unfold dumpsSettings
  rw [hsort]

/-! Frame lemmas about eviction: `_remove_largest_entries` only ever removes
index entries, and it never touches the cache configuration. -/

theorem removeFromCache_lookup (k j : String) (s : AudioCache.CacheState) :
    lookupKey j (AudioCache.removeFromCache k s).index = lookupKey j s.index ∨
      lookupKey j (AudioCache.removeFromCache k s).index = Option.none := by
  unfold AudioCache.removeFromCache
  by_cases hs : (lookupKey k s.index).isSome
  · rw [if_pos hs]
    by_cases hjk : j = k
    · subst hjk
      right
      exact lookupKey_delKey_self j s.index
    · left
      exact lookupKey_delKey_other j k hjk s.index
  · rw [if_neg hs]
    left
    rfl

theorem removeFromCache_maxAge (k : String) (s : AudioCache.CacheState) :
    (AudioCache.removeFromCache k s).maxAgeSeconds = s.maxAgeSeconds := by
  unfold AudioCache.removeFromCache
  split <;> rfl

theorem removeLargestEntries_lookup (target : Int) (s : AudioCache.CacheState) :
    ∀ s1, AudioCache.removeLargestEntries target s = Except.ok s1 →
      ∀ j, lookupKey j s1.index = lookupKey j s.index ∨
        lookupKey j s1.index = Option.none := by
  refine AudioCache.removeLargestEntries.induct target
    (fun s => ∀ s1, AudioCache.removeLargestEntries target s = Except.ok s1 →
      ∀ j, lookupKey j s1.index = lookupKey j s.index ∨
        lookupKey j s1.index = Option.none) ?_ ?_ ?_ s
  · intro x hgt hlk s1 h j
    rw [AudioCache.removeLargestEntries] at h
    rw [if_pos hgt] at h
    split at h
    · simp at h
    · rename_i k2 heq
      rw [hlk] at heq
      exact absurd heq (by simp)
  · intro x hgt k hlk ih s1 h j
    rw [AudioCache.removeLargestEntries] at h
    rw [if_pos hgt] at h
    split at h
    · rename_i heq
      rw [hlk] at heq
      exact absurd heq (by simp)
    rename_i k2 heq
    rw [hlk] at heq
    injection heq with hk2
    subst hk2
    rcases ih s1 h j with h1 | h1
    · rcases removeFromCache_lookup k j x with h2 | h2
      · exact Or.inl (h1.trans h2)
      · exact Or.inr (h1.trans h2)
    · exact Or.inr h1
  · intro x hgt s1 h j
    rw [AudioCache.removeLargestEntries] at h
    rw [if_neg hgt] at h
    simp only [Except.ok.injEq] at h
    subst h
    exact Or.inl rfl

theorem removeLargestEntries_maxAge (target : Int) (s : AudioCache.CacheState) :
    ∀ s1, AudioCache.removeLargestEntries target s = Except.ok s1 →
      s1.maxAgeSeconds = s.maxAgeSeconds := by
  refine AudioCache.removeLargestEntries.induct target
    (fun s => ∀ s1, AudioCache.removeLargestEntries target s = Except.ok s1 →
      s1.maxAgeSeconds = s.maxAgeSeconds) ?_ ?_ ?_ s
  · intro x hgt hlk s1 h
    rw [AudioCache.removeLargestEntries] at h
    rw [if_pos hgt] at h
    split at h
    · simp at h
    · rename_i k2 heq
      rw [hlk] at heq
      exact absurd heq (by simp)
  · intro x hgt k hlk ih s1 h
    rw [AudioCache.removeLargestEntries] at h
    rw [if_pos hgt] at h
    split at h
    · rename_i heq
      rw [hlk] at heq
      exact absurd heq (by simp)
    rename_i k2 heq
    rw [hlk] at heq
    injection heq with hk2
    subst hk2
    exact (ih s1 h).trans (removeFromCache_maxAge k x)
  · intro x hgt s1 h
    rw [AudioCache.removeLargestEntries] at h
    rw [if_neg hgt] at h
    simp only [Except.ok.injEq] at h
    subst h
    rfl

/-- Claim C2: the cache key is a pure function of (text, engine, voiceId,
settings); two settings maps with unique keys that are equal as maps —
i.e. permutations of each other, whatever their insertion order — give the
same `_generate_cache_key`, because settings are serialized with sorted
keys before hashing. -/
theorem genCacheKey_deterministic (text engine voiceId : String)
    (s1 s2 : List (String × SVal))
    (hnd : (s1.map Prod.fst).Nodup) (hperm : s1.Perm s2) :
    AudioCache.genCacheKey text engine voiceId s1 =
      AudioCache.genCacheKey text engine voiceId s2 := by
  unfold AudioCache.genCacheKey
  rw [dumpsSettings_perm s1 s2 hnd hperm]

/-- Witness for C2 at a concrete input: the same two-key settings map in its
two insertion orders produces the same cache key. -/
theorem genCacheKey_deterministic_witness :
    AudioCache.genCacheKey "hello" "gtts" "v1"
        [("speed", SVal.num 1), ("lang", SVal.str "en")] =
      AudioCache.genCacheKey "hello" "gtts" "v1"
        [("lang", SVal.str "en"), ("speed", SVal.num 1)] :=
  genCacheKey_deterministic "hello" "gtts" "v1"
    [("speed", SVal.num 1), ("lang", SVal.str "en")]
    [("lang", SVal.str "en"), ("speed", SVal.num 1)]
    (by decide)
    (List.Perm.swap ("lang", SVal.str "en") ("speed", SVal.num 1) [])

/-- Claim C4: an index entry whose age `now - createdAt` exceeds
`maxAgeSeconds` is reported as a miss by `get_cached_audio`, and the entry is
removed from the index as a side effect (whether or not its payload file
still exists). -/
theorem getCachedAudio_expired (now : Int) (text engine voiceId : String)
    (settings : List (String × SVal)) (s : AudioCache.CacheState)
    (entry : AudioCache.CacheEntry)
    (h1 : lookupKey (AudioCache.genCacheKey text engine voiceId settings) s.index =
      some entry)
    (h2 : now - entry.createdAt > s.maxAgeSeconds) :
    (AudioCache.getCachedAudio now text engine voiceId settings s).1 = Option.none ∧
      lookupKey (AudioCache.genCacheKey text engine voiceId settings)
        (AudioCache.getCachedAudio now text engine voiceId settings s).2.index =
        Option.none := by
  simp only [AudioCache.getCachedAudio, h1]
  rcases hf : lookupKey (AudioCache.genCacheKey text engine voiceId settings) s.files
    with _ | data
  · simp only [hf]
    exact ⟨trivial, lookupKey_delKey_self _ _⟩
  · simp only [hf, if_pos h2]
    refine ⟨trivial, ?_⟩
    have hsome : (lookupKey (AudioCache.genCacheKey text engine voiceId settings)
        s.index).isSome := by
      rw [h1]; rfl
    unfold AudioCache.removeFromCache
    rw [if_pos hsome]
    exact lookupKey_delKey_self _ _

/-- Witness for C4: a cache whose one entry was created at epoch 0 with
`maxAgeSeconds = 5`, read at `now = 100`: a miss, and the entry is gone. -/
theorem getCachedAudio_expired_witness :
    (AudioCache.getCachedAudio 100 "bye" "gtts" "v" []
        (AudioCache.CacheState.mk 10485760 5
          [("bye:gtts:v:\x7b\x7d", AudioCache.CacheEntry.mk 0 0 3 "gtts" "v")]
          [("bye:gtts:v:\x7b\x7d", [1, 2, 3])])).1 = Option.none ∧
      lookupKey (AudioCache.genCacheKey "bye" "gtts" "v" [])
        (AudioCache.getCachedAudio 100 "bye" "gtts" "v" []
          (AudioCache.CacheState.mk 10485760 5
            [("bye:gtts:v:\x7b\x7d", AudioCache.CacheEntry.mk 0 0 3 "gtts" "v")]
            [("bye:gtts:v:\x7b\x7d", [1, 2, 3])])).2.index = Option.none :=
  getCachedAudio_expired 100 "bye" "gtts" "v" []
    (AudioCache.CacheState.mk 10485760 5
      [("bye:gtts:v:\x7b\x7d", AudioCache.CacheEntry.mk 0 0 3 "gtts" "v")]
      [("bye:gtts:v:\x7b\x7d", [1, 2, 3])])
    (AudioCache.CacheEntry.mk 0 0 3 "gtts" "v") (by rfl) (by decide)

/-- Claim C1 (amended): the cache round-trip holds whenever `cache_audio`
returns normally — if `cacheAudio(t,e,v,s,bytes)` succeeds (the payload
write went through) on a cache with a non-negative `maxAgeSeconds`, then an
immediate `getCachedAudio(t,e,v,s)` on the resulting cache returns exactly
`bytes`.  (When the payload is larger than `maxSizeBytes`, `cache_audio`
does not return: eviction raises `ValueError`, see the counterexample.) -/
theorem cacheAudio_roundTrip (now : Int) (text engine voiceId : String)
    (settings : List (String × SVal)) (audioData : List Nat)
    (s : AudioCache.CacheState) (key : String) (s1 : AudioCache.CacheState)
    (hage : 0 ≤ s.maxAgeSeconds)
    (h : AudioCache.cacheAudio now text engine voiceId settings audioData true s =
      Except.ok (key, s1)) :
    (AudioCache.getCachedAudio now text engine voiceId settings s1).1 = some audioData := by
  simp only [AudioCache.cacheAudio] at h
  split at h
  · simp at h
  · rename_i s0 heq
    simp only [if_true, Except.ok.injEq, Prod.mk.injEq] at h
    obtain ⟨hkey, hs1⟩ := h
    have hmax : s0.maxAgeSeconds = s.maxAgeSeconds := by
      split at heq
      · exact removeLargestEntries_maxAge _ s s0 heq
      · simp only [Except.ok.injEq] at heq
        rw [← heq]
    subst hs1
    simp only [AudioCache.getCachedAudio, lookupKey_setKey_self]
    have hnotold : ¬ (now - now > s0.maxAgeSeconds) := by
      rw [hmax]
      omega
    rw [if_neg hnotold]

/-- Witness for C1: caching three bytes in a fresh 1 MB cache and reading
them back immediately returns exactly those bytes. -/
theorem cacheAudio_roundTrip_witness :
    (AudioCache.getCachedAudio 5 "hi" "gtts" "v" []
        (AudioCache.CacheState.mk 1048576 604800
          [("hi:gtts:v:\x7b\x7d", AudioCache.CacheEntry.mk 5 5 3 "gtts" "v")]
          [("hi:gtts:v:\x7b\x7d", [1, 2, 3])])).1 = some [1, 2, 3] :=
  cacheAudio_roundTrip 5 "hi" "gtts" "v" [] [1, 2, 3] (AudioCache.initCache 1 7)
    "hi:gtts:v:\x7b\x7d"
    (AudioCache.CacheState.mk 1048576 604800
      [("hi:gtts:v:\x7b\x7d", AudioCache.CacheEntry.mk 5 5 3 "gtts" "v")]
      [("hi:gtts:v:\x7b\x7d", [1, 2, 3])])
    (by decide) (by rfl)

/-- Counterexample for C1 as stated: on a fresh cache with
`max_size_mb = 0`, caching a one-byte payload does not return a key at
all — eviction raises `ValueError: max() arg is an empty sequence` — and
the immediate `get_cached_audio` is a miss, not the cached bytes. -/
theorem cacheAudio_roundTrip_cex :
    AudioCache.cacheAudio 0 "t" "e" "v" [] [7] true (AudioCache.initCache 0 7) =
      Except.error ("ValueError: max() arg is an empty sequence", AudioCache.initCache 0 7)
    ∧ (AudioCache.getCachedAudio 0 "t" "e" "v" [] (AudioCache.initCache 0 7)).1 ≠ some [7] := by
  constructor
  · have h1 : AudioCache.removeLargestEntries
        ((AudioCache.initCache 0 7).maxSizeBytes - (([7] : List Nat).length : Int))
        (AudioCache.initCache 0 7) =
        Except.error ("ValueError: max() arg is an empty sequence", AudioCache.initCache 0 7) := by
      rw [AudioCache.removeLargestEntries]
      rw [if_pos (by decide)]
      rfl
    simp only [AudioCache.cacheAudio]
    rw [if_pos (by decide), h1]
  · simp [AudioCache.getCachedAudio, AudioCache.initCache, lookupKey]

/-- Claim C3 (the code on the failing input): inserting a payload larger
than `maxSizeBytes` does not leave the cache within its size bound — the
call never returns; `_remove_largest_entries` empties the index and then
`max(...)` raises `ValueError` on the empty sequence. -/
theorem cacheAudio_oversized_raises :
    AudioCache.cacheAudio 100 "text" "pyttsx3" "voice" [] [1, 2, 3] true
        (AudioCache.initCache 0 30) =
      Except.error ("ValueError: max() arg is an empty sequence", AudioCache.initCache 0 30) := by
  have h1 : AudioCache.removeLargestEntries
      ((AudioCache.initCache 0 30).maxSizeBytes - (([1, 2, 3] : List Nat).length : Int))
      (AudioCache.initCache 0 30) =
      Except.error ("ValueError: max() arg is an empty sequence", AudioCache.initCache 0 30) := by
    rw [AudioCache.removeLargestEntries]
    rw [if_pos (by decide)]
    rfl
  simp only [AudioCache.cacheAudio]
  rw [if_pos (by decide), h1]

/-- Claim C5 (amended): the payload is written only after eviction and the
index only after the payload, so when the payload write fails `cache_audio`
adds or modifies no index entry — every key's entry is either exactly what
it was before the call or has been evicted (eviction to make room happens
before the write); in particular no entry for the new key is added, and no
index entry ever points at a missing or partial payload. -/
theorem cacheAudio_writeFailure_frame (now : Int) (text engine voiceId : String)
    (settings : List (String × SVal)) (audioData : List Nat)
    (s : AudioCache.CacheState) (key : String) (s1 : AudioCache.CacheState)
    (h : AudioCache.cacheAudio now text engine voiceId settings audioData false s =
      Except.ok (key, s1)) :
    ∀ j : String, lookupKey j s1.index = lookupKey j s.index ∨
      lookupKey j s1.index = Option.none := by
  simp only [AudioCache.cacheAudio] at h
  split at h
  · simp at h
  · rename_i s0 heq
    simp only [if_neg (by simp : ¬ (false = true)), Except.ok.injEq, Prod.mk.injEq] at h
    obtain ⟨hkey, hs1⟩ := h
    subst hs1
    intro j
    split at heq
    · exact removeLargestEntries_lookup _ s s0 heq j
    · simp only [Except.ok.injEq] at heq
      rw [← heq]
      exact Or.inl rfl

/-- Witness for C5: a failed write on a cache that needed no eviction leaves
every index entry exactly as it was. -/
theorem cacheAudio_writeFailure_frame_witness :
    lookupKey "a"
        (AudioCache.CacheState.mk 1048576 604800
          [("a", AudioCache.CacheEntry.mk 0 0 2 "e" "v")] [("a", [5, 5])]).index =
      lookupKey "a"
        (AudioCache.CacheState.mk 1048576 604800
          [("a", AudioCache.CacheEntry.mk 0 0 2 "e" "v")] [("a", [5, 5])]).index ∨
    lookupKey "a"
        (AudioCache.CacheState.mk 1048576 604800
          [("a", AudioCache.CacheEntry.mk 0 0 2 "e" "v")] [("a", [5, 5])]).index =
      Option.none :=
  cacheAudio_writeFailure_frame 3 "x" "e" "v" [] [9] (AudioCache.CacheState.mk 1048576 604800
      [("a", AudioCache.CacheEntry.mk 0 0 2 "e" "v")] [("a", [5, 5])])
    "x:e:v:\x7b\x7d"
    (AudioCache.CacheState.mk 1048576 604800
      [("a", AudioCache.CacheEntry.mk 0 0 2 "e" "v")] [("a", [5, 5])])
    (by rfl) "a"

/-- Counterexample for C5 as stated: with one 5-byte entry in an 8-byte
cache, caching a 6-byte payload whose write then fails still evicts the old
entry first — the index after the call is empty, not unchanged. -/
theorem cacheAudio_writeFailure_cex :
    AudioCache.cacheAudio 1 "t" "e" "v" [] [1, 1, 1, 1, 1, 1] false
        (AudioCache.CacheState.mk 8 604800
          [("k", AudioCache.CacheEntry.mk 0 0 5 "e" "v")] [("k", [9, 9, 9, 9, 9])]) =
      Except.ok ("t:e:v:\x7b\x7d", AudioCache.CacheState.mk 8 604800 [] [])
    ∧ (AudioCache.CacheState.mk 8 604800
        [("k", AudioCache.CacheEntry.mk 0 0 5 "e" "v")] [("k", [9, 9, 9, 9, 9])]).index ≠
      ([] : List (String × AudioCache.CacheEntry)) := by
  constructor
  · have h1 : AudioCache.removeLargestEntries
        ((AudioCache.CacheState.mk 8 604800
            [("k", AudioCache.CacheEntry.mk 0 0 5 "e" "v")]
            [("k", [9, 9, 9, 9, 9])]).maxSizeBytes - (([1, 1, 1, 1, 1, 1] : List Nat).length : Int))
        (AudioCache.CacheState.mk 8 604800
          [("k", AudioCache.CacheEntry.mk 0 0 5 "e" "v")] [("k", [9, 9, 9, 9, 9])]) =
        Except.ok (AudioCache.CacheState.mk 8 604800 [] []) := by
      rw [AudioCache.removeLargestEntries]
      rw [if_pos (by decide)]
      have h2 : AudioCache.removeLargestEntries
          ((AudioCache.CacheState.mk 8 604800
              [("k", AudioCache.CacheEntry.mk 0 0 5 "e" "v")]
              [("k", [9, 9, 9, 9, 9])]).maxSizeBytes - (([1, 1, 1, 1, 1, 1] : List Nat).length : Int))
          (AudioCache.removeFromCache "k"
            (AudioCache.CacheState.mk 8 604800
              [("k", AudioCache.CacheEntry.mk 0 0 5 "e" "v")] [("k", [9, 9, 9, 9, 9])])) =
          Except.ok (AudioCache.CacheState.mk 8 604800 [] []) := by
        rw [AudioCache.removeLargestEntries]
        rw [if_neg (by decide)]
        rfl
      exact h2
    simp only [AudioCache.cacheAudio]
    rw [if_pos (by decide), h1]
    rfl
  · simp

/-- Claim C6 (amended): `configure` on a recognized 0–1-bounded setting with
a numeric value outside [0, 1] raises
`TTSEngineError("Failed to configure ... must be between 0 and 1")`; the
prior settings are guaranteed unchanged when the offending entry is the
first one processed (for example a singleton map, as in the spec's
scenario).  When valid recognized entries precede the offending one in the
map's iteration order they remain applied — see the counterexample. -/
theorem configure_outOfRange_first (st : ElevenLabs.EngineState) (q : ℚ)
    (hrec : (lookupKey "stability" st.settings).isSome)
    (hq : ¬ (0 ≤ q ∧ q ≤ 1)) :
    ElevenLabs.configure st [("stability", SVal.num q)] =
      Except.error
        ("Failed to configure ElevenLabs TTS engine: stability must be between 0 and 1",
          st) := by
  have hchk : ElevenLabs.checkOne st "stability" (SVal.num q) =
      some "stability must be between 0 and 1" := by
    unfold ElevenLabs.checkOne
    rw [if_neg (by simp)]
    rw [if_pos (Or.inl rfl)]
    show (if 0 ≤ q ∧ q ≤ 1 then Option.none
      else some ("stability" ++ " must be between 0 and 1")) =
      some "stability must be between 0 and 1"
    rw [if_neg hq]
    rfl
  unfold ElevenLabs.configure ElevenLabs.configureLoop
  rw [if_pos hrec, hchk]
  rfl

/-- Witness for C6: `configure({"stability": 2})` on the default engine
(where 2 plays the spec's 1.5) raises and leaves the settings untouched. -/
theorem configure_outOfRange_first_witness :
    ElevenLabs.configure ElevenLabs.defaultEngine [("stability", SVal.num 2)] =
      Except.error
        ("Failed to configure ElevenLabs TTS engine: stability must be between 0 and 1",
          ElevenLabs.defaultEngine) :=
  configure_outOfRange_first ElevenLabs.defaultEngine 2 (by rfl) (by norm_num)

/-- Counterexample for C6 as stated: in
`configure({"similarity_boost": 1, "stability": 2})` the out-of-range
stability raises, but the similarity_boost entry processed before it has
already been applied — prior settings are not left unchanged. -/
theorem configure_not_atomic_cex :
    ElevenLabs.configure ElevenLabs.defaultEngine
        [("similarity_boost", SVal.num 1), ("stability", SVal.num 2)] =
      Except.error
        ("Failed to configure ElevenLabs TTS engine: stability must be between 0 and 1",
          ElevenLabs.EngineState.mk
            [("voice_id", SVal.str "21m00Tcm4TlvDq8ikWAM"),
             ("stability", SVal.num (1/2)),
             ("similarity_boost", SVal.num 1),
             ("style", SVal.num 0),
             ("use_speaker_boost", SVal.bool true),
             ("model_id", SVal.str "eleven_monolingual_v1")] [])
    ∧ lookupKey "similarity_boost" ElevenLabs.defaultEngine.settings =
        some (SVal.num (3/4))
    ∧ SVal.num (1 : ℚ) ≠ SVal.num (3/4) := by
  refine ⟨?_, rfl, by norm_num⟩
  have h1 : ElevenLabs.checkOne ElevenLabs.defaultEngine "similarity_boost"
      (SVal.num 1) = Option.none := by
    unfold ElevenLabs.checkOne
    rw [if_neg (by simp)]
    rw [if_pos (Or.inr (Or.inl rfl))]
    show (if (0:ℚ) ≤ 1 ∧ (1:ℚ) ≤ 1 then Option.none
      else some ("similarity_boost" ++ " must be between 0 and 1")) = Option.none
    rw [if_pos (by norm_num)]
  unfold ElevenLabs.configure ElevenLabs.configureLoop
  rw [if_pos (by rfl), h1]
  unfold ElevenLabs.configureLoop
  rw [if_pos (by rfl)]
  have h2 : ElevenLabs.checkOne
      { ElevenLabs.defaultEngine with
          settings := setKey "similarity_boost" (SVal.num 1) ElevenLabs.defaultEngine.settings }
      "stability" (SVal.num 2) = some "stability must be between 0 and 1" := by
    unfold ElevenLabs.checkOne
    rw [if_neg (by simp)]
    rw [if_pos (Or.inl rfl)]
    show (if (0:ℚ) ≤ 2 ∧ (2:ℚ) ≤ 1 then Option.none
      else some ("stability" ++ " must be between 0 and 1")) =
      some "stability must be between 0 and 1"
    rw [if_neg (by norm_num)]
    rfl
  rw [h2]
  rfl

/-- Claim C10: `configure` with a settings map whose keys are all
unrecognized (not keys of `self._settings`) does not raise and leaves the
engine state — every recognized setting included — entirely unchanged: the
loop body only runs for keys already in `self._settings`. -/
theorem configure_unknown_keys_noop (st : ElevenLabs.EngineState)
    (cfg : List (String × SVal))
    (h : ∀ p ∈ cfg, lookupKey p.1 st.settings = Option.none) :
    ElevenLabs.configure st cfg = Except.ok st := by
  have hloop : ∀ cfg2 : List (String × SVal),
      (∀ p ∈ cfg2, lookupKey p.1 st.settings = Option.none) →
      ElevenLabs.configureLoop cfg2 st = Except.ok st := by
    intro cfg2
    induction cfg2 with
    | nil => intro _; rfl
    | cons p rest ih =>
      intro hall
      rcases p with ⟨k, v⟩
      have hk := hall (k, v) (List.mem_cons_self (k, v) rest)
      unfold ElevenLabs.configureLoop
      rw [hk]
      exact ih (fun p hp => hall p (List.mem_cons_of_mem (k, v) hp))
  unfold ElevenLabs.configure
  rw [hloop cfg h]

/-- Witness for C10: configuring the default engine with two unknown keys
succeeds and changes nothing. -/
theorem configure_unknown_keys_noop_witness :
    ElevenLabs.configure ElevenLabs.defaultEngine
        [("volume", SVal.num 1), ("speed", SVal.num 2)] =
      Except.ok ElevenLabs.defaultEngine :=
  configure_unknown_keys_noop ElevenLabs.defaultEngine
    [("volume", SVal.num 1), ("speed", SVal.num 2)] (by decide)

/-- Claim C7 (amended): for the `dist/engines/tts_factory.py` factory,
`get_engine` is a memoized-singleton lookup — once a call returns an
instance, every later call with that name returns the same instance and
leaves the factory unchanged — and a name that is neither memoized nor in
the class registry yields `None`.  The `engines/factory.py` variant does
neither: it constructs a fresh instance on every call and raises
`ValueError` for an unknown name (see the counterexample). -/
theorem getEngine_memoized_or_none (f : Factories.DistFactory) (engineName : String) :
    (∀ inst, (f.getEngine engineName).1 = some inst →
      ((f.getEngine engineName).2.getEngine engineName).1 = some inst ∧
        ((f.getEngine engineName).2.getEngine engineName).2 = (f.getEngine engineName).2)
    ∧ (lookupKey engineName f.engines = Option.none →
        lookupKey engineName f.engineClasses = Option.none →
        (f.getEngine engineName).1 = Option.none) := by
  constructor
  · intro inst hinst
    rcases hm : lookupKey engineName f.engines with _ | i
    · by_cases hc : (lookupKey engineName f.engineClasses).isSome
      · have hfst : f.getEngine engineName =
            (some f.nextId,
              Factories.DistFactory.mk f.engineClasses
                (setKey engineName f.nextId f.engines) (f.nextId + 1)) := by
          unfold Factories.DistFactory.getEngine
          rw [hm, if_pos hc]
        rw [hfst] at hinst ⊢
        simp only at hinst ⊢
        have hsnd : (Factories.DistFactory.mk f.engineClasses
            (setKey engineName f.nextId f.engines) (f.nextId + 1)).getEngine engineName =
            (some f.nextId,
              Factories.DistFactory.mk f.engineClasses
                (setKey engineName f.nextId f.engines) (f.nextId + 1)) := by
          unfold Factories.DistFactory.getEngine
          rw [lookupKey_setKey_self]
        rw [hsnd]
        exact ⟨hinst, rfl⟩
      · have hfst : f.getEngine engineName = (Option.none, f) := by
          unfold Factories.DistFactory.getEngine
          rw [hm, if_neg hc]
        rw [hfst] at hinst
        simp at hinst
    · have hfst : f.getEngine engineName = (some i, f) := by
        unfold Factories.DistFactory.getEngine
        rw [hm]
      rw [hfst] at hinst ⊢
      simp only at hinst ⊢
      rw [hfst]
      exact ⟨hinst, rfl⟩
  · intro h1 h2
    unfold Factories.DistFactory.getEngine
    rw [h1, if_neg (by rw [h2]; simp)]

/-- Witness for C7: in the freshly built dist factory, a second
`get_engine("pyttsx3")` returns the same memoized instance the first call
created, and an unregistered name gives `None`. -/
theorem getEngine_memoized_or_none_witness :
    ((Factories.initDistFactory.getEngine "pyttsx3").2.getEngine "pyttsx3").1 = some 0
    ∧ (Factories.initDistFactory.getEngine "nosuch").1 = Option.none :=
  ⟨((getEngine_memoized_or_none Factories.initDistFactory "pyttsx3").1 0 (by rfl)).1,
   (getEngine_memoized_or_none Factories.initDistFactory "nosuch").2 (by rfl) (by rfl)⟩

/-- Counterexample for C7 as stated: the `engines/factory.py` registry (one
of the claim's two cited `get_engine` implementations) returns a fresh
instance on every call — the second call yields allocation 1, not the
memoized allocation 0 — and raises `ValueError` for an unknown name instead
of returning `None`. -/
theorem srcFactory_fresh_instance_cex :
    (Factories.initSrcFactory.getEngine "edge-tts").1 = Except.ok (0, "EdgeTTSEngine")
    ∧ ((Factories.initSrcFactory.getEngine "edge-tts").2.getEngine "edge-tts").1 =
        Except.ok (1, "EdgeTTSEngine")
    ∧ (1 : Nat) ≠ 0
    ∧ (Factories.initSrcFactory.getEngine "nosuch").1 =
        Except.error "Unsupported engine type: nosuch" := by
  refine ⟨rfl, rfl, by decide, rfl⟩

/-- Claim C8: with an effects map whose only truthy entries are
`equalization` and `compression` — whatever position those two keys occupy
in the map — `_apply_effects` produces exactly the EQ stage applied first
and the compression stage applied to its result: the chain order is the
pipeline's fixed sequence, never the map's iteration order. -/
theorem applyEffects_eq_then_compression {α : Type} (st : Effects.Stages α)
    (audio : α) (effects : List (String × PyVal))
    (h1 : (dictGet effects "noise_reduction").truthy = false)
    (h2 : (dictGet effects "equalization").truthy = true)
    (h3 : (dictGet effects "compression").truthy = true)
    (h4 : (dictGet effects "reverb").truthy = false)
    (h5 : (dictGet effects "echo").truthy = false)
    (h6 : (dictGet effects "pitch_shift").truthy = false)
    (h7 : (dictGet effects "time_stretch").truthy = false)
    (h8 : (dictGet effects "stereo_width").truthy = false) :
    Effects.applyEffects st audio effects =
      st.applyCompression (st.applyEq audio (dictGet effects "equalization"))
        (dictGet effects "compression") := by
  unfold Effects.applyEffects
  rw [h1, h2, h3, h4, h5, h6, h7, h8]
  simp

/-- Witness for C8 at a concrete input, with `compression` listed before
`equalization` in the map: the output is still EQ first, compression
second. -/
theorem applyEffects_eq_then_compression_witness :
    Effects.applyEffects
        (Effects.Stages.mk (fun a => a + 1) (fun a _ => a * 2) (fun a _ => a * 3)
          (fun a _ => a * 5) (fun a _ => a * 7) (fun a _ => a * 11)
          (fun a _ => a * 13) (fun a _ => a * 17))
        (1 : Nat)
        [("compression", PyVal.dict [("threshold", PyVal.num (-20))]),
         ("equalization", PyVal.dict [("bands", PyVal.list [])])] = 6 :=
  (applyEffects_eq_then_compression
      (Effects.Stages.mk (fun a => a + 1) (fun a _ => a * 2) (fun a _ => a * 3)
        (fun a _ => a * 5) (fun a _ => a * 7) (fun a _ => a * 11)
        (fun a _ => a * 13) (fun a _ => a * 17))
      (1 : Nat)
      [("compression", PyVal.dict [("threshold", PyVal.num (-20))]),
       ("equalization", PyVal.dict [("bands", PyVal.list [])])]
      rfl rfl rfl rfl rfl rfl rfl rfl).trans rfl

/-- Claim C9 (the code on the failing input): on any spectrogram with more
than one STFT frame — here 3 frequency bins × 2 frames — harmonic
enhancement does not multiply peak magnitudes at all: `_find_harmonic_peaks`
evaluates Python `and` on a multi-element numpy boolean row, which raises
`ValueError`, so `_enhance_harmonics` propagates the exception instead of
returning an enhanced spectrogram. -/
theorem enhanceHarmonics_multiframe_valueError :
    Spectral.enhanceHarmonics
        [[Spectral.PComplex.mk 1 0, Spectral.PComplex.mk 1 0],
         [Spectral.PComplex.mk 5 0, Spectral.PComplex.mk 5 0],
         [Spectral.PComplex.mk 1 0, Spectral.PComplex.mk 1 0]] [] =
      Except.error
        "ValueError: The truth value of an array with more than one element is ambiguous" := by
  rfl
